import Mathlib

/-!
Shallow embedding of pygad's spatial-transformation subsystem
(`pygad/transformation/transformation.py`) and proofs about it.

Numbers are modelled by `ℚ` (the Python code computes with floats; every
concrete input used below is small and exactly representable, so rational
arithmetic agrees with the source on those inputs).  A unit is modelled by
its scale factor relative to a fixed base unit; converting a quantity from
unit `u` into unit `v` multiplies by `u / v`.  The numpy array machinery and
`np.linalg` are external collaborators of the subsystem: arrays are modelled
by explicit lists together with their shape, and the eigendecomposition used
by `Rotation.axis` is passed in as data.
-/

namespace Pygad

/-- The failure modes of the subsystem.  The Python source raises plain
`ValueError` in all construction/validation cases; the constructors below
distinguish the check that fired (the messages differ in the source).
`degenerateAxisError` is the dedicated error named by the specification for
`Rotation.axis`; the source never raises it (it raises `IndexError`
instead), which is exactly what some of the theorems below are about.  -/
inductive Err
  | shapeError              -- 'Rotation matrix needs to be a 3x3-matrix!'
  | orthogonalityError      -- 'Rotation matrix needs to fullfil R^T == R^-1!'
  | improperRotationError   -- 'Rotation matrix needs to fullfil det(R) == +1 ...'
  | blockShapeError         -- 'The block has to have shape (?,3)!'
  | indexError              -- python IndexError (out-of-bounds indexing)
  | nameError               -- python NameError (undefined name)
  | broadcastError          -- numpy: operands could not be broadcast together
  | notAlignedError         -- numpy: shapes not aligned in matrix product
  | degenerateAxisError     -- named by the spec only; never raised by the code
deriving DecidableEq, Repr

abbrev Mat3 := Matrix (Fin 3) (Fin 3) ℚ
abbrev Vec3 := Fin 3 → ℚ
abbrev UnitScale := ℚ

/-- Models `np.linalg.det` on a 3×3 matrix (cofactor expansion along the first row). -/
def det3 (R : Mat3) : ℚ :=
  R 0 0 * (R 1 1 * R 2 2 - R 1 2 * R 2 1)
  - R 0 1 * (R 1 0 * R 2 2 - R 1 2 * R 2 0)
  + R 0 2 * (R 1 0 * R 2 1 - R 1 1 * R 2 0)

/-- Models `np.sum(np.abs(R * R.T - np.eye(3)))` from the `rotmat` setter:
the entrywise 1-norm of `R·Rᵗ − I`. -/
def orthDefect (R : Mat3) : ℚ :=
  ∑ i, ∑ j, |(R * R.transpose - 1) i j|

/-- A `Rotation` value: the stored matrix `self._R` and the stored flag
`self._test_proper`. -/
structure Rotation where
  R : Mat3
  testProper : Bool

/-- A `Translation` value: the stored vector `self._trans` together with its
(unit) tag, which may be unset (`None`). -/
structure Translation where
  trans : Vec3
  units : Option UnitScale

/-- The two concrete transformation classes of the source. -/
inductive Transform
  | tr  (t : Translation)
  | rot (r : Rotation)

/-- The validation performed by the `Rotation.rotmat` setter once the value
has been coerced to a 3×3 matrix: orthogonality within absolute tolerance
1e-6 on the entrywise 1-norm, then (if `test_proper`) `det(R) > 0`
(`is_proper`).  On success the rotation stores the matrix and the flag. -/
def rotmatChecks (R : Mat3) (testProper : Bool) : Except Err Rotation :=
  if orthDefect R > 1e-6 then .error .orthogonalityError
  else if testProper = true ∧ ¬ (0 < det3 R) then .error .improperRotationError
  else .ok ⟨R, testProper⟩

/-- Row-major list-of-rows view of a 3×3 matrix (for feeding a matrix back
through the shape check of the `rotmat` setter). -/
def toLists3 (R : Mat3) : List (List ℚ) :=
  [[R 0 0, R 0 1, R 0 2], [R 1 0, R 1 1, R 1 2], [R 2 0, R 2 1, R 2 2]]

/-- Models `np.matrix(value)` of a rectangular nested list, as a total function
(out-of-range entries default to 0; they are never read for 3×3 input). -/
def toMat3 (m : List (List ℚ)) : Mat3 :=
  Matrix.of fun i j => (m.getD i.val []).getD j.val 0

/-- Models `Rotation(rotmat, test_proper)` construction from a rectangular nested
list: first the shape check `len(shape)!=2 or shape!=(3,3)` (ShapeError),
then the orthogonality and properness checks of the `rotmat` setter,
in this order. -/
def Rotation.mkFromLists (m : List (List ℚ)) (testProper : Bool) : Except Err Rotation :=
  if m.length = 3 ∧ ∀ r ∈ m, r.length = 3 then rotmatChecks (toMat3 m) testProper
  else .error .shapeError

/-- Source `Rotation.copy`: `return Rotation(self._R)` — rebuilt with the *default*
`test_proper=True`, re-running the full validation. -/
def Rotation.copy (r : Rotation) : Except Err Rotation :=
  rotmatChecks r.R true

/-- Source `Rotation.inverse`: `return Rotation(self._R.T)` — again constructed with
the default `test_proper=True`, re-running the full validation. -/
def Rotation.inverse (r : Rotation) : Except Err Rotation :=
  rotmatChecks r.R.transpose true

/-- Source `Rotation.is_proper`: `det(R) > 0`. -/
def Rotation.isProper (r : Rotation) : Bool :=
  decide (0 < det3 r.R)

/-- Source `Translation.copy`: `Translation(self._trans)` (vector and unit kept). -/
def Translation.copy (t : Translation) : Translation :=
  ⟨t.trans, t.units⟩

/-- Source `Translation.inverse`: `Translation(-self._trans)`. -/
def Translation.inverse (t : Translation) : Translation :=
  ⟨-t.trans, t.units⟩

/-- Squared tolerance used in `Rotation.axis`: `np.abs(vals - 1) < 1e-9`
on complex eigenvalues, encoded on the squared modulus. -/
def eigTolSq : ℚ := 1e-9 * 1e-9

/-- Whether one complex eigenvalue satisfies `np.abs(val - 1) < 1e-9`
(squared-modulus form). -/
def eigNearOne (v : ℚ × ℚ) : Prop :=
  (v.1 - 1) ^ 2 + v.2 ^ 2 < eigTolSq

instance (v : ℚ × ℚ) : Decidable (eigNearOne v) := by
  unfold eigNearOne
  infer_instance

/-- The first element of `np.where(np.abs(vals - 1) < 1e-9)[0]`, i.e. the
smallest index whose eigenvalue is within 1e-9 of 1, if any. -/
def firstMatch : List (ℚ × ℚ) → Option Nat
  | [] => none
  | v :: rest =>
    if eigNearOne v then some 0 else (firstMatch rest).map (· + 1)

/-- Source `Rotation.axis`.  Here `np.linalg.eig` is an external numerical routine; its
output is passed in as data: `vals` are the eigenvalues (complex numbers as
real/imaginary pairs) and `veccols` the corresponding eigenvector columns.
The source computes `i = np.where(np.abs(vals - 1) < 1e-9)[0][0]` — indexing
the (possibly empty) array of matching indices without any guard, so an
empty match raises `IndexError` — and returns `vecs[:,i].real`. -/
def Rotation.axis (vals : List (ℚ × ℚ)) (veccols : List (List (ℚ × ℚ))) :
    Except Err (List ℚ) :=
  match firstMatch vals with
  | none => .error .indexError
  | some i =>
    match veccols.get? i with
    | some col => .ok (col.map Prod.fst)
    | none => .error .indexError

/-! ### Blocks and the numpy array model

A block's array is 1-d or 2-d (the shapes the claims exercise).  2-d arrays
are lists of rows, assumed rectangular (numpy arrays always are).  numpy
broadcasting/alignment of the exact shapes reached by the code is modelled;
degenerate numpy cases (empty arrays, second axis 1) do not occur in any
claim and are mapped to the corresponding numpy error.  -/

/-- A numpy array: 1-dimensional or 2-dimensional (list of rows). -/
inductive NDArr
  | one (v : List ℚ)
  | two (rows : List (List ℚ))
deriving DecidableEq, Repr

/-- Models `block.shape`. -/
def NDArr.shape : NDArr → List Nat
  | .one v => [v.length]
  | .two rows => [rows.length, (rows.headD []).length]

/-- The shape validation of `Translation._apply_to_block` (line 264) and
`Rotation._apply_to_block` (line 350):
`if not len(block.shape)==2 and block.shape[1]==d: raise ValueError(...)`.
By Python precedence this is `(not (len(shape) == 2)) and (shape[1] == d)`:
for a 2-d array the first conjunct is `False` and the `and` short-circuits
(no error, whatever the second axis is); for a 1-d array evaluating
`shape[1]` raises `IndexError`; only a ≥3-d array with `shape[1] == d`
reaches the `ValueError`.  `d` is the transform's dimensionality (3). -/
def checkBlockShape (shape : List Nat) (d : Nat) : Except Err Unit :=
  if shape.length = 2 then .ok ()
  else
    match shape.get? 1 with
    | none => .error .indexError
    | some m => if m = d then .error .blockShapeError else .ok ()

/-- List transpose of a rectangular list of rows (numpy `.T`). -/
def transposeL : List (List ℚ) → List (List ℚ)
  | [] => []
  | r :: rest =>
    match rest with
    | [] => r.map (fun x => [x])
    | _ :: _ => List.zipWith (fun x col => x :: col) r (transposeL rest)

/-- Pointwise linear combination `p·u + q·v + r·w` of three equally long
rows (one row of a `3×3 · 3×n` matrix product). -/
def lc3 (p q r : ℚ) : List ℚ → List ℚ → List ℚ → List ℚ
  | x :: xs, y :: ys, z :: zs => (p * x + q * y + r * z) :: lc3 p q r xs ys zs
  | _, _, _ => []

/-- Models `(self._R * block.T).T` of `Rotation._apply_to_block`: transpose the
block, left-multiply by R, transpose back.  A 2-d block whose rows do not
have length 3 leaves the matrix product misaligned (numpy `ValueError`). -/
def rotArr (R : Mat3) (b : NDArr) : Except Err NDArr :=
  match b with
  | .two rows =>
    match transposeL rows with
    | [c0, c1, c2] =>
      .ok (.two (transposeL
        [lc3 (R 0 0) (R 0 1) (R 0 2) c0 c1 c2,
         lc3 (R 1 0) (R 1 1) (R 1 2) c0 c1 c2,
         lc3 (R 2 0) (R 2 1) (R 2 2) c0 c1 c2]))
    | _ => .error .notAlignedError
  | .one _ => .error .notAlignedError

/-- Add the 3-vector `v` to one length-3 row. -/
def addRow3 (v : Vec3) : List ℚ → List ℚ
  | [a, b, c] => [a + v 0, b + v 1, c + v 2]
  | r => r

/-- Models `block + trans` / `block += trans` of `Translation._apply_to_block`:
numpy broadcasting adds `v` to every row; a 2-d block whose rows do not
have length 3 fails to broadcast (numpy `ValueError`). -/
def transArr (v : Vec3) (b : NDArr) : Except Err NDArr :=
  match b with
  | .two rows =>
    if rows.all (fun r => r.length == 3) then .ok (.two (rows.map (addRow3 v)))
    else .error .broadcastError
  | .one _ => .error .broadcastError

/-- A block: its array together with its (unit) tag (`None` for a plain
ndarray in detached mode). -/
structure Block where
  arr : NDArr
  units : Option UnitScale
deriving DecidableEq, Repr

/-- Models the `x.in_units_of(target)` conversion factor.  The unit machinery is an
external collaborator; unit-less operands (not exercised with distinct
units by any claim) convert with factor 1. -/
def convFactor : Option UnitScale → Option UnitScale → ℚ
  | some u, some v => u / v
  | _, _ => 1

/-- Source `_apply_to_block` of the two concrete transforms, both call modes.
After the (buggy) shape validation, a `Translation` adds its vector — in
attached mode converted into the block's units first (`in_units_of`,
line 271), in detached mode added directly (line 269) — and a `Rotation`
computes `(R · blockᵗ)ᵗ`; in both cases the result keeps the block's unit
tag (`transformed.units = block.units`, line 357). -/
def Transform.applyToBlock (t : Transform) (b : Block) (attached : Bool) :
    Except Err Block :=
  match t with
  | .tr t =>
    match checkBlockShape b.arr.shape 3 with
    | .error e => .error e
    | .ok _ =>
      let v := if attached then convFactor t.units b.units • t.trans else t.trans
      match transArr v b.arr with
      | .error e => .error e
      | .ok arr' => .ok ⟨arr', b.units⟩
  | .rot r =>
    match checkBlockShape b.arr.shape 3 with
    | .error e => .error e
    | .ok _ =>
      match rotArr r.R b.arr with
      | .error e => .error e
      | .ok arr' => .ok ⟨arr', b.units⟩

/-- Source `self._change.keys()` in iteration order: `Translation` changes only
`pos`; `Rotation` changes `pos`, `vel`, `acce`.  Both concrete transforms
pass empty `pre`/`post` lists to the base constructor, so the `todo` list of
`apply` (line 174) is exactly the changed-block list. -/
def Transform.changes : Transform → List String
  | .tr _ => ["pos"]
  | .rot _ => ["pos", "vel", "acce"]

/-! ### The view hierarchy and `Transformation.apply`

A view exposes `available_blocks()` and its materialized blocks
(`snap.__dict__`, with the host-subsnap fallback of lines 182–185 collapsed
into the storage map: a name is listed iff the block is resident and would
be transformed without triggering a load).  `Transformation.apply` is
modelled at a root view: `snap.families()` are its sub-views,
`snap._trans_at_load` the replay log, and `snap.boxsize.units` the unit
adopted by unit-less translations on recording.  Sub-views are one level
deep: the recursive call of line 202 passes `fams=False`, so it never
recurses further, and with `remember=False` on a non-root view it reduces
to the per-level block loop (lines 177–194).

Family blocks ALIAS the root's arrays: `fam.pos` is a numpy view of the
rows of the root's `pos` belonging to that family, and the in-place writes
of `_apply_to_block` (`block += ...`, `block[:] = transformed`) write
through to the root's storage — the module's own doctest (lines 61–70)
shows `rot.apply(s.gas, remember=False)` changing `s.pos[0]` while leaving
`s.pos[-1]` untouched.  The model therefore keeps ONE storage map on the
root and represents a family by its available-block names together with the
row indices of the root's arrays it covers; applying a transform on a
family slices those rows out, transforms them, and scatters them back.
(Blocks hosted only on a family, with no root rows, are not exercised by
any claim and are not modelled.)  -/

/-- A family sub-view: its available block names and the rows of the root's
arrays that belong to its particles. -/
structure FamView where
  avail : List String
  idxs : List Nat
deriving DecidableEq, Repr

/-- One recorded entry of `snap._trans_at_load`.  Translation entries always
carry a concrete unit: the append path (lines 220–222) sets a unit before
copying. -/
inductive LogEntry
  | translation (v : Vec3) (units : UnitScale)
  | rotation (R : Mat3) (testProper : Bool)

/-- A root view: its available blocks, the shared block storage, its family
sub-views, the replay log and the box-size unit. -/
structure Root where
  avail : List String
  loaded : List (String × Block)
  fams : List FamView
  transAtLoad : List LogEntry
  boxUnits : UnitScale

/-- Look a block up in the storage map. -/
def lookupBlock : List (String × Block) → String → Option Block
  | [], _ => none
  | (k, b) :: rest, n => if k = n then some b else lookupBlock rest n

/-- In-place update of a materialized block (names are unique). -/
def setBlock (l : List (String × Block)) (n : String) (b : Block) :
    List (String × Block) :=
  l.map fun p => if p.1 = n then (n, b) else p

/-- Slice the rows of an array at the given indices — a family's numpy view
of a root array. -/
def NDArr.slice (idxs : List Nat) : NDArr → NDArr
  | .one v => .one (idxs.map fun i => v.getD i 0)
  | .two rows => .two (idxs.map fun i => rows.getD i [])

/-- Write transformed rows back through a family's view: row `k` of the
transformed sub-array lands at index `idxs[k]` of the root's array (the
in-place writes of `_apply_to_block` writing through the numpy view). -/
def NDArr.scatter (idxs : List Nat) (new : List (List ℚ)) : NDArr → NDArr
  | .one v => .one v
  | .two rows => .two ((List.zip idxs new).foldl (fun acc p => acc.set p.1 p.2) rows)

/-- Apply a transform to one block of a family: transform the slice of the
root's array at the family's rows and write it back through.  (Successful
transforms always return 2-d arrays, so the 1-d arm is unreachable.) -/
def applyToFamBlock (t : Transform) (b : Block) (idxs : List Nat) :
    Except Err Block :=
  match t.applyToBlock ⟨b.arr.slice idxs, b.units⟩ true with
  | .error e => .error e
  | .ok sub =>
    match sub.arr with
    | .two newRows => .ok ⟨b.arr.scatter idxs newRows, b.units⟩
    | .one _ => .ok ⟨b.arr, b.units⟩

/-- The block loop of `apply` on the view itself (lines 177–194): walk
`todo`, skip names that are unavailable, excluded, or not materialized,
transform the rest in place and collect them in `done`. -/
def applyLevelGo (t : Transform) (avail exclude : List String) :
    List String → List (String × Block) → List String →
    Except Err (List (String × Block) × List String)
  | [], st, done => .ok (st, done)
  | name :: rest, st, done =>
    if name ∈ avail ∧ name ∉ exclude then
      match lookupBlock st name with
      | none => applyLevelGo t avail exclude rest st done
      | some b =>
        match t.applyToBlock b true with
        | .error e => .error e
        | .ok b' =>
          applyLevelGo t avail exclude rest (setBlock st name b')
            (done ++ [name])
    else applyLevelGo t avail exclude rest st done

/-- One level of `apply` on a view with the given available blocks and
storage: returns the updated storage and the `done` set. -/
def applyLevel (t : Transform) (avail : List String)
    (st : List (String × Block)) (exclude : List String) :
    Except Err (List (String × Block) × List String) :=
  applyLevelGo t avail exclude t.changes st []

/-- The block loop of the recursive `apply` on one family view: same walk,
with the family's availability, the parent's `done` set as the exclusion
set, and slice-transform-scatter against the shared root storage.  (The
family's own `done` set only feeds its `fams`/`remember` steps, which are
disabled in the recursive call, so it is not collected.) -/
def applyFamGo (t : Transform) (fam : FamView) (exclude : List String) :
    List String → List (String × Block) → Except Err (List (String × Block))
  | [], st => .ok st
  | name :: rest, st =>
    if name ∈ fam.avail ∧ name ∉ exclude then
      match lookupBlock st name with
      | none => applyFamGo t fam exclude rest st
      | some b =>
        match applyToFamBlock t b fam.idxs with
        | .error e => .error e
        | .ok b' => applyFamGo t fam exclude rest (setBlock st name b')
    else applyFamGo t fam exclude rest st

/-- Lines 196–203: for each family sub-view in turn, the recursive
`apply(fam, total=False, remember=False, fams=False, exclude=done)` —
which on a non-root view with `fams=False` is exactly one block loop,
mutating the shared storage through the family's aliased rows. -/
def famsApply (t : Transform) (done : List String) :
    List FamView → List (String × Block) → Except Err (List (String × Block))
  | [], st => .ok st
  | f :: rest, st =>
    match applyFamGo t f done t.changes st with
    | .error e => .error e
    | .ok st' => famsApply t done rest st'

/-- Lines 205–222: the replay-log update when `remember` holds and the view
is the root.  If the last entry has the same class as `self`, merge into it
in place: translations add vectors after converting the new one into the
stored entry's units (a unit-less new translation first adopts
`snap.boxsize.units`); rotations compose as `self._R * last._R`
(new · old), keeping the stored entry's flag.  Otherwise append
`self.copy()` — for a unit-less translation after setting its units to
`snap.boxsize.units`; for a rotation, `copy` re-validates with the default
`test_proper=True` and may raise.  (The `NotImplementedError` branch for an
unknown transformation class is unreachable: `Transform` is closed.)
`appendEntry` is the append path (lines 219–222), `updateLog` the whole
dispatch. -/
def appendEntry (t : Transform) (log : List LogEntry) (boxU : UnitScale) :
    Except Err (List LogEntry) :=
  match t with
  | .tr t => .ok (log ++ [.translation t.trans (t.units.getD boxU)])
  | .rot r =>
    match r.copy with
    | .error e => .error e
    | .ok r' => .ok (log ++ [.rotation r'.R r'.testProper])

def updateLog (t : Transform) (log : List LogEntry) (boxU : UnitScale) :
    Except Err (List LogEntry) :=
  match log.getLast? with
  | none => appendEntry t log boxU
  | some last =>
    match t, last with
    | .tr t, .translation lv lu =>
      .ok (log.dropLast ++
        [.translation (lv + (t.units.getD boxU / lu) • t.trans) lu])
    | .rot r, .rotation lR ltp =>
      .ok (log.dropLast ++ [.rotation (r.R * lR) ltp])
    | .tr _, .rotation _ _ => appendEntry t log boxU
    | .rot _, .translation _ _ => appendEntry t log boxU

/-- Source `Transformation.apply(snap, total, remember, fams, exclude)` called on a
root view (`total` only redirects a sub-view to its root, a no-op here; the
`remember and snap is snap.root` guard of line 205 therefore reduces to
`remember`). -/
def Transformation.apply (t : Transform) (snap : Root)
    (total remember fams : Bool) (exclude : List String) : Except Err Root :=
  match applyLevel t snap.avail snap.loaded exclude with
  | .error e => .error e
  | .ok (st1, done) =>
    match (if fams then famsApply t done snap.fams st1 else .ok st1) with
    | .error e => .error e
    | .ok st2 =>
      match (if remember then updateLog t snap.transAtLoad snap.boxUnits
             else .ok snap.transAtLoad) with
      | .error e => .error e
      | .ok log' => .ok ⟨snap.avail, st2, snap.fams, log', snap.boxUnits⟩

/-- One call to `apply` with its arguments. -/
structure Call where
  t : Transform
  total : Bool
  remember : Bool
  fams : Bool
  exclude : List String

/-- A sequence of `apply` calls on the same root view. -/
def applyCalls (snap : Root) : List Call → Except Err Root
  | [] => .ok snap
  | c :: rest =>
    match Transformation.apply c.t snap c.total c.remember c.fams c.exclude with
    | .error e => .error e
    | .ok snap' => applyCalls snap' rest

/-- Kind of a log entry (translation vs rotation). -/
def LogEntry.isTranslation : LogEntry → Bool
  | .translation .. => true
  | .rotation .. => false

/-- Kind of a transform (translation vs rotation). -/
def Transform.isTranslationT : Transform → Bool
  | .tr _ => true
  | .rot _ => false

/-- The replay-log invariant: no two consecutive entries of the same kind. -/
def Alternating (log : List LogEntry) : Prop :=
  List.Chain' (fun a b => a.isTranslation ≠ b.isTranslation) log

/-! ### The base-class constructor (`Transformation.__init__`) -/

/-- The state built by `Transformation.__init__`. -/
structure TransformationBase where
  change : List String
  pre : List String
  post : List String
deriving DecidableEq, Repr

/-- Source `Transformation.__init__(change, pre=None, post=None)` (lines 106–109).
Line 109 reads `self._post = [] if post is None else prost.copy()` — the
name `prost` is undefined, so any call with a non-`None` `post` raises
`NameError` when that branch of the conditional expression is evaluated. -/
def Transformation.init (change : List String)
    (pre post : Option (List String)) : Except Err TransformationBase :=
  match post with
  | none => .ok ⟨change, pre.getD [], []⟩
  | some _ => .error .nameError

/-! ### Supporting lemmas -/

theorem transpose_fin_three (a b c d e f g h i : ℚ) :
    (!![a, b, c; d, e, f; g, h, i]).transpose = !![a, d, g; b, e, h; c, f, i] := by
  ext x y
  fin_cases x <;> fin_cases y <;> rfl

theorem det3_eq_det (R : Mat3) : det3 R = R.det := by
  rw [Matrix.det_fin_three]
  unfold det3
  ring

theorem orthDefect_of_orth {R : Mat3} (h : R * R.transpose = 1) :
    orthDefect R = 0 := by
  unfold orthDefect
  rw [h]
  simp

theorem det3_dichotomy {R : Mat3} (h : R * R.transpose = 1) :
    det3 R = 1 ∨ det3 R = -1 := by
  have hdet : R.det * R.det = 1 := by
    have := congrArg Matrix.det h
    rwa [Matrix.det_mul, Matrix.det_transpose, Matrix.det_one] at this
  rcases mul_self_eq_one_iff.mp hdet with h1 | h1 <;>
    [left; right] <;> rw [det3_eq_det, h1]

theorem rotmatChecks_of_orth {R : Mat3} (tp : Bool) (h : R * R.transpose = 1) :
    rotmatChecks R tp =
      if tp = true ∧ ¬ (0 < det3 R) then .error .improperRotationError
      else .ok ⟨R, tp⟩ := by
  unfold rotmatChecks
  rw [if_neg]
  rw [orthDefect_of_orth h]
  norm_num

theorem rotmatChecks_ok {R : Mat3} (tp : Bool) (h : R * R.transpose = 1)
    (hdet : det3 R = 1) : rotmatChecks R tp = .ok ⟨R, tp⟩ := by
  rw [rotmatChecks_of_orth tp h, if_neg]
  rw [hdet]
  norm_num

theorem rotmatChecks_improper {R : Mat3} (h : R * R.transpose = 1)
    (hdet : det3 R = -1) :
    rotmatChecks R true = .error .improperRotationError := by
  rw [rotmatChecks_of_orth true h, if_pos]
  refine ⟨rfl, ?_⟩
  rw [hdet]
  norm_num

theorem toMat3_toLists3 (R : Mat3) : toMat3 (toLists3 R) = R := by
  ext i j
  fin_cases i <;> fin_cases j <;> rfl

theorem toLists3_shape (R : Mat3) :
    (toLists3 R).length = 3 ∧ ∀ r ∈ toLists3 R, r.length = 3 := by
  refine ⟨rfl, ?_⟩
  intro r hr
  simp only [toLists3, List.mem_cons, List.not_mem_nil, or_false] at hr
  rcases hr with h | h | h <;> rw [h] <;> rfl

theorem eq_dropLast_concat {α : Type} :
    ∀ {l : List α} {a : α}, l.getLast? = some a → l = l.dropLast ++ [a] := by
  intro l
  induction l with
  | nil => intro a h; cases h
  | cons x xs ih =>
    intro a h
    cases xs with
    | nil =>
      simp only [List.getLast?_singleton, Option.some.injEq] at h
      rw [h]
      rfl
    | cons y ys =>
      rw [List.getLast?_cons_cons] at h
      have := ih h
      calc x :: y :: ys = x :: ((y :: ys).dropLast ++ [a]) := by rw [← this]
        _ = (x :: y :: ys).dropLast ++ [a] := by simp

theorem alternating_concat_iff (xs : List LogEntry) (a : LogEntry) :
    Alternating (xs ++ [a]) ↔
      Alternating xs ∧
        ∀ x, xs.getLast? = some x → x.isTranslation ≠ a.isTranslation := by
  unfold Alternating
  rw [List.chain'_append]
  simp

theorem appendEntry_shape {t : Transform} {log log' : List LogEntry}
    {boxU : UnitScale} (h : appendEntry t log boxU = .ok log') :
    (∃ tv : Translation, t = .tr tv ∧
        log' = log ++ [.translation tv.trans (tv.units.getD boxU)]) ∨
    (∃ (r : Rotation) (r' : Rotation), t = .rot r ∧ r.copy = .ok r' ∧
        log' = log ++ [.rotation r'.R r'.testProper]) := by
  cases t with
  | tr tv =>
    left
    exact ⟨tv, rfl, (Except.ok.inj h).symm⟩
  | rot r =>
    right
    have h' : (match r.copy with
        | Except.error e => (Except.error e : Except Err (List LogEntry))
        | Except.ok r' =>
          Except.ok (log ++ [LogEntry.rotation r'.R r'.testProper]))
        = Except.ok log' := h
    cases hc : r.copy with
    | error e => rw [hc] at h'; exact Except.noConfusion h'
    | ok r' =>
      rw [hc] at h'
      exact ⟨r, r', rfl, hc, (Except.ok.inj h').symm⟩

theorem updateLog_alternating {t : Transform} {log log' : List LogEntry}
    {boxU : UnitScale} (halt : Alternating log)
    (h : updateLog t log boxU = .ok log') : Alternating log' := by
  have append_case :
      ∀ {log' : List LogEntry}, appendEntry t log boxU = .ok log' →
        (∀ x, log.getLast? = some x → x.isTranslation ≠ t.isTranslationT) →
        Alternating log' := by
    intro l' hap hk
    rcases appendEntry_shape hap with ⟨tv, ht, hl'⟩ | ⟨r, r', ht, _, hl'⟩ <;>
      subst hl' <;>
      refine (alternating_concat_iff _ _).mpr ⟨halt, fun x hx => ?_⟩ <;>
      have hkx := hk x hx <;>
      rw [ht] at hkx <;>
      simpa [Transform.isTranslationT, LogEntry.isTranslation] using hkx
  cases hl : log.getLast? with
  | none =>
    rw [updateLog, hl] at h
    exact append_case h (fun x hx => by rw [hl] at hx; cases hx)
  | some last =>
    rw [updateLog, hl] at h
    have hsplit := eq_dropLast_concat hl
    cases t with
    | tr tv =>
      cases last with
      | translation lv lu =>
        simp only [Except.ok.injEq] at h
        subst h
        rw [hsplit] at halt
        rcases (alternating_concat_iff _ _).mp halt with ⟨h1, h2⟩
        exact (alternating_concat_iff _ _).mpr ⟨h1, fun x hx => h2 x hx⟩
      | rotation lR ltp =>
        exact append_case h (fun x hx => by
          rw [hl] at hx
          cases hx
          simp [LogEntry.isTranslation, Transform.isTranslationT])
    | rot r =>
      cases last with
      | rotation lR ltp =>
        simp only [Except.ok.injEq] at h
        subst h
        rw [hsplit] at halt
        rcases (alternating_concat_iff _ _).mp halt with ⟨h1, h2⟩
        exact (alternating_concat_iff _ _).mpr ⟨h1, fun x hx => h2 x hx⟩
      | translation lv lu =>
        exact append_case h (fun x hx => by
          rw [hl] at hx
          cases hx
          simp [LogEntry.isTranslation, Transform.isTranslationT])

theorem lookupBlock_setBlock_ne (l : List (String × Block)) {n m : String}
    (b : Block) (h : m ≠ n) :
    lookupBlock (setBlock l n b) m = lookupBlock l m := by
  induction l with
  | nil => rfl
  | cons p rest ih =>
    show lookupBlock ((if p.1 = n then (n, b) else p) :: setBlock rest n b) m
      = lookupBlock (p :: rest) m
    by_cases hp : p.1 = n
    · rw [if_pos hp]
      show (if n = m then some b else lookupBlock (setBlock rest n b) m)
        = if p.1 = m then some p.2 else lookupBlock rest m
      have h1 : ¬ n = m := fun hnm => h hnm.symm
      have h2 : ¬ p.1 = m := by rw [hp]; exact h1
      rw [if_neg h1, if_neg h2, ih]
    · rw [if_neg hp]
      show (if p.1 = m then some p.2 else lookupBlock (setBlock rest n b) m)
        = if p.1 = m then some p.2 else lookupBlock rest m
      rw [ih]

theorem applyLevelGo_spec (t : Transform) (avail exclude : List String) :
    ∀ (todo : List String) (st : List (String × Block)) (done : List String)
      (st' : List (String × Block)) (done' : List String),
      applyLevelGo t avail exclude todo st done = .ok (st', done') →
      (∀ n ∈ exclude, lookupBlock st' n = lookupBlock st n)
      ∧ (∀ m ∈ done', m ∈ done ∨ m ∉ exclude) := by
  intro todo
  induction todo with
  | nil =>
    intro st done st' done' h
    have h' : (Except.ok (st, done)
        : Except Err (List (String × Block) × List String))
        = .ok (st', done') := h
    have hp := Prod.mk.inj (Except.ok.inj h')
    rw [← hp.1, ← hp.2]
    exact ⟨fun n _ => rfl, fun m hm => Or.inl hm⟩
  | cons name rest ih =>
    intro st done st' done' h
    have h' : (if name ∈ avail ∧ name ∉ exclude then
        match lookupBlock st name with
        | none => applyLevelGo t avail exclude rest st done
        | some b =>
          match Transform.applyToBlock t b true with
          | .error e =>
            (.error e : Except Err (List (String × Block) × List String))
          | .ok b' =>
            applyLevelGo t avail exclude rest (setBlock st name b')
              (done ++ [name])
      else applyLevelGo t avail exclude rest st done) = .ok (st', done') := h
    by_cases hc : name ∈ avail ∧ name ∉ exclude
    · rw [if_pos hc] at h'
      cases hl : lookupBlock st name with
      | none =>
        rw [hl] at h'
        exact ih st done st' done' h'
      | some b =>
        rw [hl] at h'
        have h'' : (match Transform.applyToBlock t b true with
          | .error e =>
            (.error e : Except Err (List (String × Block) × List String))
          | .ok b' =>
            applyLevelGo t avail exclude rest (setBlock st name b')
              (done ++ [name])) = .ok (st', done') := h'
        cases ha : Transform.applyToBlock t b true with
        | error e => rw [ha] at h''; exact Except.noConfusion h''
        | ok b' =>
          rw [ha] at h''
          obtain ⟨ih1, ih2⟩ :=
            ih (setBlock st name b') (done ++ [name]) st' done' h''
          constructor
          · intro n hn
            have hne : n ≠ name := fun he => hc.2 (he ▸ hn)
            rw [ih1 n hn]
            exact lookupBlock_setBlock_ne st b' hne
          · intro m hm
            rcases ih2 m hm with hmem | hnot
            · rcases List.mem_append.mp hmem with hd | hone
              · exact Or.inl hd
              · have : m = name := List.mem_singleton.mp hone
                exact Or.inr (this ▸ hc.2)
            · exact Or.inr hnot
    · rw [if_neg hc] at h'
      exact ih st done st' done' h'

theorem applyLevel_spec {t : Transform} {avail : List String}
    {st : List (String × Block)} {exclude : List String}
    {st' : List (String × Block)} {done' : List String}
    (h : applyLevel t avail st exclude = .ok (st', done')) :
    (∀ n ∈ exclude, lookupBlock st' n = lookupBlock st n)
    ∧ (∀ m ∈ done', m ∉ exclude) := by
  obtain ⟨h1, h2⟩ := applyLevelGo_spec t avail exclude t.changes st [] st' done' h
  refine ⟨h1, fun m hm => ?_⟩
  rcases h2 m hm with hmem | hnot
  · cases hmem
  · exact hnot

theorem apply_shape {t : Transform} {snap : Root} {total remember fams : Bool}
    {exclude : List String} {snap' : Root}
    (h : Transformation.apply t snap total remember fams exclude = .ok snap') :
    ∃ st1 done st2 log',
      applyLevel t snap.avail snap.loaded exclude = .ok (st1, done)
      ∧ (if fams then famsApply t done snap.fams st1 else .ok st1) = .ok st2
      ∧ (if remember then updateLog t snap.transAtLoad snap.boxUnits
         else .ok snap.transAtLoad) = .ok log'
      ∧ snap' = ⟨snap.avail, st2, snap.fams, log', snap.boxUnits⟩ := by
  have h' : (match applyLevel t snap.avail snap.loaded exclude with
    | .error e => (.error e : Except Err Root)
    | .ok (st1, done) =>
      match (if fams then famsApply t done snap.fams st1 else .ok st1) with
      | .error e => .error e
      | .ok st2 =>
        match (if remember then updateLog t snap.transAtLoad snap.boxUnits
               else .ok snap.transAtLoad) with
        | .error e => .error e
        | .ok log' =>
          .ok ⟨snap.avail, st2, snap.fams, log', snap.boxUnits⟩) = .ok snap' := h
  cases hA : applyLevel t snap.avail snap.loaded exclude with
  | error e => rw [hA] at h'; exact Except.noConfusion h'
  | ok p =>
    obtain ⟨st1, done⟩ := p
    rw [hA] at h'
    have h2 : (match (if fams then famsApply t done snap.fams st1
          else .ok st1) with
      | .error e => (.error e : Except Err Root)
      | .ok st2 =>
        match (if remember then updateLog t snap.transAtLoad snap.boxUnits
               else .ok snap.transAtLoad) with
        | .error e => .error e
        | .ok log' =>
          .ok ⟨snap.avail, st2, snap.fams, log', snap.boxUnits⟩) = .ok snap' := h'
    cases hB : (if fams then famsApply t done snap.fams st1 else .ok st1) with
    | error e => rw [hB] at h2; exact Except.noConfusion h2
    | ok st2 =>
      rw [hB] at h2
      have h3 : (match (if remember then updateLog t snap.transAtLoad
            snap.boxUnits else .ok snap.transAtLoad) with
        | .error e => (.error e : Except Err Root)
        | .ok log' =>
          .ok ⟨snap.avail, st2, snap.fams, log', snap.boxUnits⟩) = .ok snap' := h2
      cases hC : (if remember then updateLog t snap.transAtLoad snap.boxUnits
                  else .ok snap.transAtLoad) with
      | error e => rw [hC] at h3; exact Except.noConfusion h3
      | ok log' =>
        rw [hC] at h3
        exact ⟨st1, done, st2, log', rfl, hB, rfl, (Except.ok.inj h3).symm⟩

theorem apply_log {t : Transform} {snap : Root} {total remember fams : Bool}
    {exclude : List String} {snap' : Root}
    (h : Transformation.apply t snap total remember fams exclude = .ok snap') :
    snap'.transAtLoad = snap.transAtLoad
    ∨ updateLog t snap.transAtLoad snap.boxUnits = .ok snap'.transAtLoad := by
  obtain ⟨st1, done, st2, log', -, -, hC, hsnap⟩ := apply_shape h
  subst hsnap
  cases remember with
  | false =>
    left
    rw [if_neg (by simp)] at hC
    exact (Except.ok.inj hC).symm
  | true =>
    right
    rw [if_pos rfl] at hC
    exact hC

theorem applyCalls_alternating :
    ∀ (calls : List Call) (snap snap' : Root),
      Alternating snap.transAtLoad → applyCalls snap calls = .ok snap' →
      Alternating snap'.transAtLoad := by
  intro calls
  induction calls with
  | nil =>
    intro snap snap' halt h
    have h' : (Except.ok snap : Except Err Root) = .ok snap' := h
    rw [← Except.ok.inj h']
    exact halt
  | cons c rest ih =>
    intro snap snap' halt h
    have h' : (match Transformation.apply c.t snap c.total c.remember c.fams
          c.exclude with
      | .error e => (.error e : Except Err Root)
      | .ok snap1 => applyCalls snap1 rest) = .ok snap' := h
    cases hA : Transformation.apply c.t snap c.total c.remember c.fams c.exclude with
    | error e => rw [hA] at h'; exact Except.noConfusion h'
    | ok snap1 =>
      rw [hA] at h'
      have halt1 : Alternating snap1.transAtLoad := by
        rcases apply_log hA with he | hu
        · rw [he]; exact halt
        · exact updateLog_alternating halt hu
      exact ih snap1 snap' halt1 h'

theorem firstMatch_cons (v : ℚ × ℚ) (rest : List (ℚ × ℚ)) :
    firstMatch (v :: rest)
      = if eigNearOne v then some 0 else (firstMatch rest).map (· + 1) := rfl

theorem firstMatch_none {vals : List (ℚ × ℚ)}
    (h : ∀ v ∈ vals, ¬ eigNearOne v) : firstMatch vals = none := by
  induction vals with
  | nil => rfl
  | cons v rest ih =>
    rw [firstMatch_cons, if_neg (h v (List.mem_cons_self v rest)),
      ih (fun w hw => h w (List.mem_cons_of_mem v hw))]
    rfl

theorem axis_eq_match (vals : List (ℚ × ℚ)) (veccols : List (List (ℚ × ℚ))) :
    Rotation.axis vals veccols
      = match firstMatch vals with
        | none => .error .indexError
        | some i =>
          match veccols.get? i with
          | some col => .ok (col.map Prod.fst)
          | none => .error .indexError := rfl

/-! ### The claims -/

/-- C4: `Rotation` construction validates in order: (1) shape 3×3, else a
shape error; (2) orthogonality of `R·Rᵗ` within 1e-6 in the entrywise
1-norm, else an orthogonality error (whatever `test_proper` and the
determinant are); (3) with `test_proper=True`, construction fails with the
improper-rotation error exactly for orthogonal matrices with determinant −1
and succeeds exactly for determinant +1. -/
theorem rotation_construction_validation :
    (∀ (m : List (List ℚ)) (tp : Bool),
        ¬ (m.length = 3 ∧ ∀ r ∈ m, r.length = 3) →
        Rotation.mkFromLists m tp = .error .shapeError)
    ∧ (∀ (R : Mat3) (tp : Bool), orthDefect R > 1e-6 →
        rotmatChecks R tp = .error .orthogonalityError)
    ∧ ∀ R : Mat3, R * R.transpose = 1 →
        (Rotation.mkFromLists (toLists3 R) true = .error .improperRotationError
            ↔ det3 R = -1)
        ∧ (Rotation.mkFromLists (toLists3 R) true = .ok ⟨R, true⟩
            ↔ det3 R = 1) := by
  refine ⟨?_, ?_, ?_⟩
  · intro m tp hm
    unfold Rotation.mkFromLists
    rw [if_neg hm]
  · intro R tp hR
    unfold rotmatChecks
    rw [if_pos hR]
  · intro R hR
    have hmk : Rotation.mkFromLists (toLists3 R) true = rotmatChecks R true := by
      unfold Rotation.mkFromLists
      rw [if_pos (toLists3_shape R), toMat3_toLists3]
    rcases det3_dichotomy hR with hd | hd
    · rw [hmk, rotmatChecks_ok true hR hd]
      refine ⟨iff_of_false (fun hcon => Except.noConfusion hcon) ?_,
        iff_of_true rfl hd⟩
      rw [hd]
      norm_num
    · rw [hmk, rotmatChecks_improper hR hd]
      refine ⟨iff_of_true rfl hd,
        iff_of_false (fun hcon => Except.noConfusion hcon) ?_⟩
      rw [hd]
      norm_num

/-- C4 witness: the doctest rotation (a cyclic permutation, det +1)
constructs; the reflection `diag(1,1,−1)` (det −1) is rejected as improper. -/
theorem rotation_construction_validation_witness :
    Rotation.mkFromLists (toLists3 !![0,1,0; 0,0,1; 1,0,0]) true
      = .ok ⟨!![0,1,0; 0,0,1; 1,0,0], true⟩
    ∧ Rotation.mkFromLists (toLists3 !![1,0,0; 0,1,0; 0,0,-1]) true
      = .error .improperRotationError := by
  have h1 : (!![0,1,0; 0,0,1; 1,0,0] : Mat3)
      * (!![0,1,0; 0,0,1; 1,0,0] : Mat3).transpose = 1 := by
    rw [transpose_fin_three, Matrix.mul_fin_three, Matrix.one_fin_three]
    norm_num
  have h2 : (!![1,0,0; 0,1,0; 0,0,-1] : Mat3)
      * (!![1,0,0; 0,1,0; 0,0,-1] : Mat3).transpose = 1 := by
    rw [transpose_fin_three, Matrix.mul_fin_three, Matrix.one_fin_three]
    norm_num
  constructor
  · exact (rotation_construction_validation.2.2 _ h1).2.mpr (by norm_num [det3])
  · exact (rotation_construction_validation.2.2 _ h2).1.mpr (by norm_num [det3])

/-- C6 counterexample: inverting a `Rotation` built with `test_proper=False`
does not inherit the flag — the result of `inverse` on the identity rotation
carries `test_proper=True` (the constructor default), not `False`. -/
theorem rotation_inverse_flag_counterexample :
    Rotation.inverse ⟨(1 : Mat3), false⟩ = .ok ⟨(1 : Mat3), true⟩
    ∧ Rotation.inverse ⟨(1 : Mat3), false⟩ ≠ .ok ⟨(1 : Mat3), false⟩ := by
  have h1 : Rotation.inverse ⟨(1 : Mat3), false⟩ = .ok ⟨(1 : Mat3), true⟩ := by
    show rotmatChecks (1 : Mat3).transpose true = _
    rw [Matrix.transpose_one]
    exact rotmatChecks_ok true (by rw [Matrix.transpose_one, mul_one])
      (by norm_num [det3, Matrix.one_fin_three])
  refine ⟨h1, ?_⟩
  rw [h1]
  intro hc
  exact Bool.noConfusion (Rotation.mk.inj (Except.ok.inj hc)).2

/-- C6 amended: `inverse` returns `Rotation(Rᵗ)` constructed with the
*default* `test_proper=True` — the flag of the original is not inherited —
re-running the full validation: for a proper orthogonal matrix it succeeds
with the transposed matrix and flag `True`; for an improper orthogonal
matrix (constructible with `test_proper=False`) it raises the
improper-rotation error. -/
theorem rotation_inverse_default_flag :
    ∀ r : Rotation,
      r.inverse = rotmatChecks r.R.transpose true
      ∧ (r.R * r.R.transpose = 1 → det3 r.R = 1 →
          r.inverse = .ok ⟨r.R.transpose, true⟩)
      ∧ (r.R * r.R.transpose = 1 → det3 r.R = -1 →
          r.inverse = .error .improperRotationError) := by
  intro r
  refine ⟨rfl, ?_, ?_⟩
  · intro ho hd
    have htr : r.R.transpose * r.R.transpose.transpose = 1 := by
      rw [Matrix.transpose_transpose]
      exact Matrix.mul_eq_one_comm.mp ho
    have hdt : det3 r.R.transpose = 1 := by
      rw [det3_eq_det, Matrix.det_transpose, ← det3_eq_det, hd]
    show rotmatChecks r.R.transpose true = _
    exact rotmatChecks_ok true htr hdt
  · intro ho hd
    have htr : r.R.transpose * r.R.transpose.transpose = 1 := by
      rw [Matrix.transpose_transpose]
      exact Matrix.mul_eq_one_comm.mp ho
    have hdt : det3 r.R.transpose = -1 := by
      rw [det3_eq_det, Matrix.det_transpose, ← det3_eq_det, hd]
    show rotmatChecks r.R.transpose true = _
    exact rotmatChecks_improper htr hdt

/-- C6 witness: inverting the doctest rotation yields its transpose with the
default flag `True`. -/
theorem rotation_inverse_default_flag_witness :
    Rotation.inverse ⟨!![0,1,0; 0,0,1; 1,0,0], false⟩
      = .ok ⟨!![0,0,1; 1,0,0; 0,1,0], true⟩ := by
  have h := (rotation_inverse_default_flag ⟨!![0,1,0; 0,0,1; 1,0,0], false⟩).2.1
    (by rw [transpose_fin_three, Matrix.mul_fin_three, Matrix.one_fin_three]
        norm_num)
    (by norm_num [det3])
  rw [transpose_fin_three] at h
  exact h

/-- C9: `Transformation.__init__` evaluates the undefined name `prost`
whenever `post` is not `None`, raising `NameError`; only `post=None`
succeeds (then `pre` is copied and `post` becomes the empty list). -/
theorem transformation_init_post_name_error :
    (∀ (change : List String) (pre post : Option (List String)),
        post ≠ none → Transformation.init change pre post = .error .nameError)
    ∧ (∀ (change : List String) (pre : Option (List String)),
        Transformation.init change pre none = .ok ⟨change, pre.getD [], []⟩) := by
  constructor
  · intro change pre post hp
    cases post with
    | none => exact absurd rfl hp
    | some l => rfl
  · intro change pre
    rfl

/-- C9 witness: passing a concrete (even empty) `post` list errors. -/
theorem transformation_init_post_name_error_witness :
    Transformation.init ["pos"] none (some ["vel"]) = .error .nameError
    ∧ Transformation.init ["pos"] none (some []) = .error .nameError :=
  ⟨transformation_init_post_name_error.1 ["pos"] none (some ["vel"]) (by simp),
   transformation_init_post_name_error.1 ["pos"] none (some []) (by simp)⟩

/-- C10: an orthogonal matrix with determinant −1 is accepted by the
constructor with `test_proper=False`, and such a rotation can be applied to
a block; but `copy` rebuilds it with the default `test_proper=True` and
raises the improper-rotation error, so `apply` with `remember=True` can
never record it into the replay log as a *new* entry (the append path goes
through `self.copy()`). -/
theorem improper_rotation_copy_fails :
    ∀ R : Mat3, R * R.transpose = 1 → det3 R = -1 →
      rotmatChecks R false = .ok ⟨R, false⟩
      ∧ Rotation.copy ⟨R, false⟩ = .error .improperRotationError
      ∧ (∀ (log : List LogEntry) (boxU : UnitScale),
          (∀ lR ltp, log.getLast? ≠ some (.rotation lR ltp)) →
          updateLog (.rot ⟨R, false⟩) log boxU = .error .improperRotationError)
      ∧ (Transform.applyToBlock (.rot ⟨R, false⟩) ⟨.two [[1, 2, 3]], some 1⟩
          true).isOk = true := by
  intro R ho hd
  have hcopy : Rotation.copy ⟨R, false⟩ = .error .improperRotationError := by
    show rotmatChecks R true = _
    exact rotmatChecks_improper ho hd
  have happ : ∀ (log : List LogEntry) (boxU : UnitScale),
      appendEntry (.rot ⟨R, false⟩) log boxU = .error .improperRotationError := by
    intro log boxU
    have h' : appendEntry (.rot ⟨R, false⟩) log boxU
        = (match Rotation.copy ⟨R, false⟩ with
          | .error e => (.error e : Except Err (List LogEntry))
          | .ok r' => .ok (log ++ [.rotation r'.R r'.testProper])) := rfl
    rw [h', hcopy]
  refine ⟨?_, hcopy, ?_, rfl⟩
  · rw [rotmatChecks_of_orth false ho, if_neg]
    simp
  · intro log boxU hlast
    cases hl : log.getLast? with
    | none => rw [updateLog, hl]; exact happ log boxU
    | some last =>
      cases last with
      | translation lv lu => rw [updateLog, hl]; exact happ log boxU
      | rotation lR ltp => exact absurd hl (hlast lR ltp)

/-- C10 witness: the reflection `diag(1,1,−1)` with `test_proper=False`:
`copy` raises, recording as a fresh log entry raises, applying succeeds. -/
theorem improper_rotation_copy_fails_witness :
    Rotation.copy ⟨!![1,0,0; 0,1,0; 0,0,-1], false⟩
      = .error .improperRotationError
    ∧ updateLog (.rot ⟨!![1,0,0; 0,1,0; 0,0,-1], false⟩) [] 1
      = .error .improperRotationError
    ∧ (Transform.applyToBlock (.rot ⟨!![1,0,0; 0,1,0; 0,0,-1], false⟩)
        ⟨.two [[1, 2, 3]], some 1⟩ true).isOk = true := by
  have ho : (!![1,0,0; 0,1,0; 0,0,-1] : Mat3)
      * (!![1,0,0; 0,1,0; 0,0,-1] : Mat3).transpose = 1 := by
    rw [transpose_fin_three, Matrix.mul_fin_three, Matrix.one_fin_three]
    norm_num
  obtain ⟨-, h2, h3, h4⟩ :=
    improper_rotation_copy_fails _ ho (by norm_num [det3])
  exact ⟨h2, h3 [] 1 (fun lR ltp h => Option.noConfusion h), h4⟩

/-- C7 counterexample: with no eigenvalue within 1e-9 of 1 (a numerically
perturbed 180° rotation spectrum), `axis` raises a plain `IndexError` from
indexing the empty match array — not a dedicated degenerate-axis error. -/
theorem rotation_axis_error_counterexample :
    Rotation.axis [(1 + 2 * 1e-9, 0), (-1, 0), (-1, 0)]
        [[(0,0),(0,0),(1,0)], [(0,0),(1,0),(0,0)], [(1,0),(0,0),(0,0)]]
      = .error .indexError
    ∧ Rotation.axis [(1 + 2 * 1e-9, 0), (-1, 0), (-1, 0)]
        [[(0,0),(0,0),(1,0)], [(0,0),(1,0),(0,0)], [(1,0),(0,0),(0,0)]]
      ≠ .error .degenerateAxisError := by
  have hfm : firstMatch [((1 + 2 * 1e-9 : ℚ), (0:ℚ)), (-1, 0), (-1, 0)] = none := by
    refine firstMatch_none ?_
    intro v hv
    simp only [List.mem_cons, List.not_mem_nil, or_false] at hv
    rcases hv with h | h | h <;> rw [h] <;> norm_num [eigNearOne, eigTolSq]
  rw [axis_eq_match, hfm]
  exact ⟨rfl, fun hc => Err.noConfusion (Except.error.inj hc)⟩

/-- C7 amended: when no eigenvalue is within 1e-9 of 1, `axis` fails with a
plain `IndexError` (the unguarded `np.where(...)[0][0]` on an empty match),
not a dedicated degenerate-axis error; when some eigenvalue is within the
tolerance, it returns the real part of the corresponding eigenvector
column. -/
theorem rotation_axis_index_error :
    (∀ (vals : List (ℚ × ℚ)) (veccols : List (List (ℚ × ℚ))),
        (∀ v ∈ vals, ¬ eigNearOne v) →
        Rotation.axis vals veccols = .error .indexError)
    ∧ (∀ (vals : List (ℚ × ℚ)) (veccols : List (List (ℚ × ℚ))) (i : Nat)
        (col : List (ℚ × ℚ)),
        firstMatch vals = some i → veccols.get? i = some col →
        Rotation.axis vals veccols = .ok (col.map Prod.fst)) := by
  constructor
  · intro vals veccols h
    rw [axis_eq_match, firstMatch_none h]
  · intro vals veccols i col hfm hcol
    rw [axis_eq_match, hfm]
    show (match veccols.get? i with
      | some col => (Except.ok (col.map Prod.fst) : Except Err (List ℚ))
      | none => .error .indexError) = _
    rw [hcol]

/-- C7 witness: an exact eigenvalue 1 at index 0 returns the real part of
the first eigenvector column. -/
theorem rotation_axis_index_error_witness :
    Rotation.axis [((1:ℚ), (0:ℚ)), (-1, 0), (-1, 0)]
        [[(0,0),(0,0),(1,0)], [(0,0),(1,0),(0,0)], [(1,0),(0,0),(0,0)]]
      = .ok [0, 0, 1] := by
  have hfm : firstMatch [((1:ℚ), (0:ℚ)), (-1, 0), (-1, 0)] = some 0 := by
    rw [firstMatch_cons, if_pos]
    norm_num [eigNearOne, eigTolSq]
  exact rotation_axis_index_error.2 _
    [[(0,0),(0,0),(1,0)], [(0,0),(1,0),(0,0)], [(1,0),(0,0),(0,0)]]
    0 [(0,0),(0,0),(1,0)] hfm rfl

/-- C5: applying a `Rotation` to a block computes `(R · blockᵗ)ᵗ` and keeps
the block's unit tag unchanged; concretely, the doctest rotation sends the
three unit vectors to the columns of `Rᵗ`. -/
theorem rotation_apply_block_spec :
    (∀ (r : Rotation) (b : Block) (att : Bool) (b' : Block),
        Transform.applyToBlock (.rot r) b att = .ok b' → b'.units = b.units)
    ∧ Transform.applyToBlock (.rot ⟨!![0,1,0; 0,0,1; 1,0,0], true⟩)
        ⟨.two [[1,0,0],[0,1,0],[0,0,1]], some 1⟩ true
      = .ok ⟨.two [[0,0,1],[1,0,0],[0,1,0]], some 1⟩ := by
  constructor
  · intro r b att b' h
    have h' : (match checkBlockShape b.arr.shape 3 with
      | .error e => (.error e : Except Err Block)
      | .ok _ =>
        match rotArr r.R b.arr with
        | .error e => .error e
        | .ok arr' => .ok ⟨arr', b.units⟩) = .ok b' := h
    cases hs : checkBlockShape b.arr.shape 3 with
    | error e => rw [hs] at h'; exact Except.noConfusion h'
    | ok u =>
      rw [hs] at h'
      have h'' : (match rotArr r.R b.arr with
        | .error e => (.error e : Except Err Block)
        | .ok arr' => .ok ⟨arr', b.units⟩) = .ok b' := h'
      cases hr : rotArr r.R b.arr with
      | error e => rw [hr] at h''; exact Except.noConfusion h''
      | ok arr' =>
        rw [hr] at h''
        rw [← Except.ok.inj h'']
  · have hstep : Transform.applyToBlock (.rot ⟨!![0,1,0; 0,0,1; 1,0,0], true⟩)
        ⟨.two [[1,0,0],[0,1,0],[0,0,1]], some 1⟩ true
        = .ok ⟨.two (transposeL
            [lc3 0 1 0 [1,0,0] [0,1,0] [0,0,1],
             lc3 0 0 1 [1,0,0] [0,1,0] [0,0,1],
             lc3 1 0 0 [1,0,0] [0,1,0] [0,0,1]]), some 1⟩ := rfl
    rw [hstep]
    norm_num [lc3, transposeL]

/-- C5 witness: the concrete application of the theorem's unit-preservation
part to its own concrete scenario. -/
theorem rotation_apply_block_spec_witness :
    ((⟨.two [[0,0,1],[1,0,0],[0,1,0]], some 1⟩ : Block)).units
      = ((⟨.two [[1,0,0],[0,1,0],[0,0,1]], some 1⟩ : Block)).units :=
  rotation_apply_block_spec.1 _ _ true _ rotation_apply_block_spec.2

/-- C2: the shape validation of `_apply_to_block` never fires for 2-d
blocks — `not len(shape)==2 and shape[1]==3` is `False` whenever
`len(shape)==2` — so a block of shape (2,4) passes the validation and the
failure surfaces only later as a numpy broadcast (translation) or
shapes-not-aligned (rotation) error; a 1-d block raises `IndexError` inside
the condition itself; a block of shape (n,3) passes and is transformed. -/
theorem block_shape_validation_eval :
    checkBlockShape [2, 4] 3 = .ok ()
    ∧ checkBlockShape [3] 3 = .error .indexError
    ∧ Transform.applyToBlock (.tr ⟨![1,2,3], none⟩)
        ⟨.two [[1,2,3,4],[5,6,7,8]], none⟩ true = .error .broadcastError
    ∧ Transform.applyToBlock (.rot ⟨!![0,1,0; 0,0,1; 1,0,0], true⟩)
        ⟨.two [[1,2,3,4],[5,6,7,8]], none⟩ true = .error .notAlignedError
    ∧ Transform.applyToBlock (.tr ⟨![1,2,3], some 1⟩)
        ⟨.two [[10,20,30]], some 1⟩ true = .ok ⟨.two [[11,22,33]], some 1⟩ := by
  refine ⟨rfl, rfl, rfl, rfl, ?_⟩
  have hstep : Transform.applyToBlock (.tr ⟨![1,2,3], some 1⟩)
      ⟨.two [[10,20,30]], some 1⟩ true
      = .ok ⟨.two [[10 + (1/1 : ℚ) * 1, 20 + (1/1 : ℚ) * 2,
          30 + (1/1 : ℚ) * 3]], some 1⟩ := rfl
  rw [hstep]
  norm_num

/-- C1 counterexample: on a root whose two-particle `pos` is loaded and
whose single family covers row 0, applying a translation with
`exclude={'pos'}` and family recursion enabled transforms `pos` anyway —
the recursive call passes `exclude=done`, not `done ∪ exclude`, the
family's rows alias the root's array, and the write goes through: row 0 of
the root's `pos` is mutated (row 1, outside the family, stays), exactly the
write-through the module's doctest shows for `rot.apply(s.gas)`.  So the
excluded block is left unchanged neither on the sub-view nor on the view
`apply` was called on. -/
theorem apply_exclude_subview_counterexample :
    Transformation.apply (.tr ⟨![1,2,3], some 1⟩)
        ⟨["pos"], [("pos", ⟨.two [[0,0,0],[9,9,9]], some 1⟩)],
         [⟨["pos"], [0]⟩], [], 1⟩
        false false true ["pos"]
      = .ok ⟨["pos"], [("pos", ⟨.two [[1,2,3],[9,9,9]], some 1⟩)],
             [⟨["pos"], [0]⟩], [], 1⟩
    ∧ (⟨.two [[1,2,3],[9,9,9]], some 1⟩ : Block)
      ≠ ⟨.two [[0,0,0],[9,9,9]], some 1⟩ := by
  constructor
  · have hstep : Transformation.apply (.tr ⟨![1,2,3], some 1⟩)
        ⟨["pos"], [("pos", ⟨.two [[0,0,0],[9,9,9]], some 1⟩)],
         [⟨["pos"], [0]⟩], [], 1⟩
        false false true ["pos"]
        = .ok ⟨["pos"], [("pos", ⟨.two [[0 + (1/1 : ℚ) * 1,
               0 + (1/1 : ℚ) * 2, 0 + (1/1 : ℚ) * 3], [9,9,9]], some 1⟩)],
               [⟨["pos"], [0]⟩], [], 1⟩ := rfl
    rw [hstep]
    norm_num
  · intro h
    norm_num at h

/-- C1 amended: the recursive calls into the sub-views use the exclusion
set `done` alone — the caller-supplied `exclude` is not unioned in.  The
view's own block loop does skip every block named in `exclude` (so with
`include_family_views=False` the excluded block is completely unchanged,
and `done` never contains a caller-excluded name), but an excluded block
that is eligible on a family sub-view is transformed there, and because
family blocks alias the root's arrays the excluded block's family rows are
mutated on the called view as well. -/
theorem apply_exclude_done_only :
    (∀ (t : Transform) (snap : Root) (total remember : Bool)
        (exclude : List String) (snap' : Root),
        Transformation.apply t snap total remember false exclude = .ok snap' →
        ∀ n ∈ exclude,
          lookupBlock snap'.loaded n = lookupBlock snap.loaded n)
    ∧ (∀ (t : Transform) (avail exclude : List String)
        (st st' : List (String × Block)) (done' : List String),
        applyLevel t avail st exclude = .ok (st', done') →
        (∀ n ∈ exclude, lookupBlock st' n = lookupBlock st n)
        ∧ ∀ m ∈ done', m ∉ exclude) := by
  constructor
  · intro t snap total remember exclude snap' h n hn
    obtain ⟨st1, done, st2, log', hA, hB, -, hsnap⟩ := apply_shape h
    subst hsnap
    rw [if_neg (by simp)] at hB
    have hst : st2 = st1 := (Except.ok.inj hB).symm
    show lookupBlock st2 n = lookupBlock snap.loaded n
    rw [hst]
    exact (applyLevel_spec hA).1 n hn
  · intro t avail exclude st st' done' h
    exact applyLevel_spec h

/-- C1 witness: with family recursion off, applying with `exclude={'pos'}`
leaves `pos` untouched on a root that has a family. -/
theorem apply_exclude_done_only_witness :
    Transformation.apply (.tr ⟨![1,2,3], some 1⟩)
        ⟨["pos"], [("pos", ⟨.two [[5,5,5]], some 1⟩)], [⟨["pos"], [0]⟩], [], 1⟩
        false false false ["pos"]
      = .ok ⟨["pos"], [("pos", ⟨.two [[5,5,5]], some 1⟩)],
             [⟨["pos"], [0]⟩], [], 1⟩
    ∧ lookupBlock [("pos", (⟨.two [[5,5,5]], some 1⟩ : Block))] "pos"
      = lookupBlock [("pos", (⟨.two [[5,5,5]], some 1⟩ : Block))] "pos" := by
  have happly : Transformation.apply (.tr ⟨![1,2,3], some 1⟩)
      ⟨["pos"], [("pos", ⟨.two [[5,5,5]], some 1⟩)], [⟨["pos"], [0]⟩], [], 1⟩
      false false false ["pos"]
      = .ok ⟨["pos"], [("pos", ⟨.two [[5,5,5]], some 1⟩)],
             [⟨["pos"], [0]⟩], [], 1⟩ := rfl
  exact ⟨happly, apply_exclude_done_only.1 _ _ false false ["pos"] _
    happly ("pos") (List.mem_singleton.mpr rfl)⟩

/-- C3: over any sequence of `apply` calls the replay log keeps the
invariant that no two consecutive entries have the same kind: a transform
of the same kind as the last entry is merged into it — two rotations
compose to `R_new · R_old` keeping the stored flag, two translations add
vectors after converting the new one into the stored entry's units — while
a transform of a different kind is appended as a separate entry. -/
theorem replay_log_merge_invariant :
    (∀ (calls : List Call) (snap snap' : Root),
        Alternating snap.transAtLoad → applyCalls snap calls = .ok snap' →
        Alternating snap'.transAtLoad)
    ∧ (∀ (r : Rotation) (l : List LogEntry) (lR : Mat3) (ltp : Bool)
        (u : UnitScale),
        updateLog (.rot r) (l ++ [.rotation lR ltp]) u
          = .ok (l ++ [.rotation (r.R * lR) ltp]))
    ∧ (∀ (tv : Translation) (l : List LogEntry) (lv : Vec3) (lu u : UnitScale),
        updateLog (.tr tv) (l ++ [.translation lv lu]) u
          = .ok (l ++
              [.translation (lv + (tv.units.getD u / lu) • tv.trans) lu]))
    ∧ (∀ (tv : Translation) (l : List LogEntry) (lR : Mat3) (ltp : Bool)
        (u : UnitScale),
        updateLog (.tr tv) (l ++ [.rotation lR ltp]) u
          = .ok ((l ++ [.rotation lR ltp])
              ++ [.translation tv.trans (tv.units.getD u)])) := by
  refine ⟨applyCalls_alternating, ?_, ?_, ?_⟩
  · intro r l lR ltp u
    rw [updateLog, List.getLast?_concat]
    show Except.ok ((l ++ [LogEntry.rotation lR ltp]).dropLast
      ++ [.rotation (r.R * lR) ltp]) = _
    rw [List.dropLast_concat]
  · intro tv l lv lu u
    rw [updateLog, List.getLast?_concat]
    show Except.ok ((l ++ [LogEntry.translation lv lu]).dropLast
      ++ [.translation (lv + (tv.units.getD u / lu) • tv.trans) lu]) = _
    rw [List.dropLast_concat]
  · intro tv l lR ltp u
    rw [updateLog, List.getLast?_concat]
    show appendEntry (.tr tv) (l ++ [.rotation lR ltp]) u = _
    rfl

/-- C3 witness: one remembered translation on a root with an empty log
yields a one-entry log satisfying the invariant. -/
theorem replay_log_merge_invariant_witness :
    applyCalls ⟨[], [], [], [], 1⟩
        [⟨.tr ⟨![1,2,3], none⟩, false, true, true, []⟩]
      = .ok ⟨[], [], [], [.translation ![1,2,3] 1], 1⟩
    ∧ Alternating [.translation ![1,2,3] 1] := by
  have happly : applyCalls ⟨[], [], [], [], 1⟩
      [⟨.tr ⟨![1,2,3], none⟩, false, true, true, []⟩]
      = .ok ⟨[], [], [], [.translation ![1,2,3] 1], 1⟩ := rfl
  exact ⟨happly, replay_log_merge_invariant.1
    [⟨.tr ⟨![1,2,3], none⟩, false, true, true, []⟩]
    ⟨[], [], [], [], 1⟩ ⟨[], [], [], [.translation ![1,2,3] 1], 1⟩
    List.chain'_nil happly⟩

/-- C8 counterexample: after `Translation([1,2,3])` and then
`Translation([-1,-2,-3])` with `remember=True` on a root with an empty
replay log, the log holds one entry, not zero. -/
theorem translation_cancel_log_counterexample :
    (applyCalls ⟨[], [], [], [], 1⟩
        [⟨.tr ⟨![1,2,3], none⟩, false, true, true, []⟩,
         ⟨.tr ⟨![-1,-2,-3], none⟩, false, true, true, []⟩]).map
      (fun r => r.transAtLoad.length) = .ok 1 := rfl

/-- C8 amended: the two opposite translations merge to a single log entry
holding the zero vector (in the box-size units adopted at first recording);
the cancelled entry is kept, not pruned. -/
theorem translation_cancel_log_amended :
    applyCalls ⟨[], [], [], [], 1⟩
        [⟨.tr ⟨![1,2,3], none⟩, false, true, true, []⟩,
         ⟨.tr ⟨![-1,-2,-3], none⟩, false, true, true, []⟩]
      = .ok ⟨[], [], [], [.translation ![0,0,0] 1], 1⟩ := by
  have hstep : applyCalls ⟨[], [], [], [], 1⟩
      [⟨.tr ⟨![1,2,3], none⟩, false, true, true, []⟩,
       ⟨.tr ⟨![-1,-2,-3], none⟩, false, true, true, []⟩]
      = .ok ⟨[], [], [],
          [.translation (![1,2,3] + ((1 : ℚ)/1) • ![-1,-2,-3]) 1], 1⟩ := rfl
  rw [hstep]
  suffices hv : ![1,2,3] + ((1 : ℚ)/1) • ![-1,-2,-3] = ![(0:ℚ),0,0] by
    rw [hv]
  funext i
  fin_cases i <;> norm_num

end Pygad
